import Mathlib

/-!
Verification development for the SEO-GEO repository's "Site Audit Engine"
core: the multi-strategy fetcher, robots/sitemap extractors, scorer and
orchestrator.

Sources embedded:
* `src/scripts/seo_audit.py` — `_is_bot_challenge`, `_url_variants`,
  `fetch_url`, `check_robots`, `check_sitemap`.
* `src/webapp/services/audit_service.py` — `run_audit`, `_calculate_score`.

Modelling conventions:
* Python strings are Lean `String`; `str.lower` and friends are ASCII
  helpers computed structurally on the underlying character lists (all
  vocabulary/signature constants involved are ASCII).
* The network is an oracle `Network : String → Strat → AttemptResult`
  giving, for each URL and fetch strategy (primary httpx attempt, or one of
  the six urllib header profiles, indexed in source order), the outcome the
  server produces: a decoded 200-response, an `HTTPError` (with optional
  readable error body), a `URLError`, or another exception.  The concrete
  header dictionaries of `_HEADER_SETS` are observable only through which
  profile index is used, so the oracle is keyed by index.
* Python floats (`load_time`) are embedded as `ℚ`; the comparisons the code
  performs (`< 3`) are exact at every value the claims mention.
* The webapp's `audit_service` imports a sibling `seo_audit` revision that
  is not among the sources (it passes a `use_stealth` flag and expects a
  `(has_sitemap, sitemap_url)` pair); the cited `src/scripts/seo_audit.py`
  functions are embedded as the authority, and the extra plumbing
  (`use_stealth`, `sitemap_url`, the DataForSEO backlink fields, which no
  claim touches) is omitted.
* `extract_meta` is regex-based HTML field extraction; no claim depends on
  its internals, so the orchestrator is parameterised by an arbitrary
  extractor `em : String → Meta` and every theorem holds for all of them.
-/

/-- ASCII `str.lower`, computed structurally on the character list. -/
def strLower (s : String) : String := String.mk (s.data.map Char.toLower)

/-- Models `str.startswith(p)`, computed structurally on the character lists. -/
def strStartsWith (s p : String) : Bool := p.data.isPrefixOf s.data

/-- Drop the first `n` characters, structurally. -/
def strDrop (s : String) (n : Nat) : String := String.mk (s.data.drop n)

/-- Longest prefix of characters satisfying `f`, structurally. -/
def strTakeWhile (s : String) (f : Char → Bool) : String :=
  String.mk (s.data.takeWhile f)

/-- Python-style substring test on char lists (`needle in hay`): an empty
needle matches everywhere, otherwise the needle must be a prefix of some
suffix. -/
def listHasInfix (needle : List Char) : List Char → Bool
  | [] => needle.isEmpty
  | c :: t => needle.isPrefixOf (c :: t) || listHasInfix needle t

/-- The test `strContains hay pat` models Python `pat in hay`. -/
def strContains (hay pat : String) : Bool :=
  listHasInfix pat.data hay.data

/-- Models `headers.get(key)` on a header mapping (first matching key). -/
def headersGet : List (String × String) → String → Option String
  | [], _ => none
  | (k, v) :: t, key => if k = key then some v else headersGet t key

/-- Fetch strategies of `fetch_url`: the primary httpx HTTP/2 attempt, then
the urllib fallback with header profile `i` (indices `0..5` of
`_HEADER_SETS` in source order: Chrome/macOS, Firefox/Windows,
Chrome/Windows, Safari/macOS, Googlebot, NumikoAuditBot). -/
inductive Strat where
  | primary : Strat
  | profile (i : Nat) : Strat
deriving DecidableEq

/-- Outcome of one network attempt, as seen by `fetch_url`'s exception
handling: a decoded response, `urllib.error.HTTPError` (with the optional
result of `e.read().decode(...)`, `none` when the read itself raises),
`urllib.error.URLError`, or any other exception with its `str(e)`. -/
inductive AttemptResult where
  | ok (content : String) (headers : List (String × String)) (loadTime : ℚ)
  | httpError (code : Nat) (reason : String) (body : Option String)
  | urlError (reason : String)
  | exc (msg : String)
deriving DecidableEq

/-- The network oracle: what each URL returns under each strategy. -/
abbrev Network := String → Strat → AttemptResult

/-- Result of `fetch_url`: `(content, headers, load_time)` on success,
`(None, None, error_string)` on total failure. -/
inductive FetchResult where
  | success (content : String) (headers : List (String × String)) (loadTime : ℚ)
  | failure (reason : String)
deriving DecidableEq

/-- Function `_is_bot_challenge(content, headers)` from `src/scripts/seo_audit.py`:
any of the three (already lowercase) Cloudflare signatures occurs in the
lowered body, or the `cf-mitigated` header equals `"challenge"`. -/
def _is_bot_challenge (content : String) (headers : List (String × String)) : Bool :=
  let contentLower := strLower content
  strContains contentLower "just a moment" ||
  strContains contentLower "challenges.cloudflare.com" ||
  strContains contentLower "cf_chl_opt" ||
  headersGet headers "cf-mitigated" == some "challenge"

/-- Components of Python's `urllib.parse.urlparse` used by the sources:
`scheme`, `netloc`, and the undissected remainder (path+query+fragment). -/
structure UrlParts where
  scheme : String
  netloc : String
  rest : String
deriving DecidableEq

/-- Split a char list at its first `':'`, if any. -/
def splitOnColon : List Char → Option (List Char × List Char)
  | [] => none
  | c :: t =>
    if c = ':' then some ([], t)
    else match splitOnColon t with
      | some (pre, post) => some (c :: pre, post)
      | none => none

/-- Characters Python's url parser allows in a scheme. -/
def schemeChar (c : Char) : Bool :=
  c.isAlpha || c.isDigit || c = '+' || c = '-' || c = '.'

/-- Models `urllib.parse`'s scheme recognition: a leading `prefix:` with
`prefix` non-empty, starting with an ASCII letter and made of scheme
characters, is split off and lowercased; otherwise the scheme is empty. -/
def splitScheme (url : String) : String × String :=
  match splitOnColon url.data with
  | some (pre, post) =>
    if pre ≠ [] ∧ (pre.head?.elim false Char.isAlpha) ∧ pre.all schemeChar then
      (String.mk (pre.map Char.toLower), String.mk post)
    else ("", url)
  | none => ("", url)

/-- Models `urllib.parse.urlparse` restricted to the fields the sources
read: after the scheme, a `//`-led netloc runs up to the first `/`, `?` or
`#`; everything else is the remainder. -/
def urlparse (url : String) : UrlParts :=
  let sp := splitScheme url
  if strStartsWith sp.2 "//" then
    let after := strDrop sp.2 2
    let netloc := strTakeWhile after (fun c => c ≠ '/' && c ≠ '?' && c ≠ '#')
    { scheme := sp.1, netloc := netloc, rest := strDrop after netloc.length }
  else
    { scheme := sp.1, netloc := "", rest := sp.2 }

/-- Models `ParseResult.geturl` (Python `urlunparse`) on the parts above. -/
def geturl (p : UrlParts) : String :=
  let u := p.rest
  let u :=
    if p.netloc ≠ "" ∨ (u ≠ "" ∧ strStartsWith u "//") then
      "//" ++ p.netloc ++ (if u ≠ "" ∧ ¬ strStartsWith u "/" then "/" ++ u else u)
    else u
  if p.scheme ≠ "" then p.scheme ++ ":" ++ u else u

/-- Function `_url_variants(url)`: the input first, then the www/non-www twin when
it differs. -/
def _url_variants (url : String) : List String :=
  let parsed := urlparse url
  let alt :=
    if strStartsWith parsed.netloc "www." then
      geturl { parsed with netloc := strDrop parsed.netloc 4 }
    else
      geturl { parsed with netloc := "www." ++ parsed.netloc }
  if alt ≠ url then [url, alt] else [url]

/-- Mutable loop state of `fetch_url`: `last_error` (initially
`"Unknown error"`) and the remembered challenge flag `got_cf_challenge`. -/
structure FetchSt where
  lastError : String
  gotCf : Bool
deriving DecidableEq

def initSt : FetchSt := { lastError := "Unknown error", gotCf := false }

/-- Control outcome of a stretch of `fetch_url`'s loops: an early `return`
of content, the early `return None, None, last_error` of the
hard-HTTP-error branch, or falling off the loop with the updated state. -/
inductive LoopOut where
  | retSuccess (content : String) (headers : List (String × String)) (loadTime : ℚ)
  | retFailure (reason : String)
  | exhausted (st : FetchSt)
deriving DecidableEq

/-- Models `str(e)` of the exceptions the httpx branch can see (Python renders
`HTTPError` as `HTTP Error code: reason` and `URLError` as
`<urlopen error reason>`); only the substring tests `"403"`/`"Client
error"` on this string are observable downstream. -/
def excStr : AttemptResult → String
  | .httpError code reason _ => "HTTP Error " ++ toString code ++ ": " ++ reason
  | .urlError reason => "<urlopen error " ++ reason ++ ">"
  | .exc msg => msg
  | .ok _ _ _ => ""

/-- The httpx (HTTP/2) primary attempt of `fetch_url` for one candidate
URL: on a challenge, remember it and fall through; on usable content
(non-empty, longer than 200 chars) return it; on an exception rewrite a
403-looking message to `"HTTP 403 Forbidden"` and fall through. -/
def httpxStep (net : Network) (u : String) (st : FetchSt) : LoopOut :=
  match net u .primary with
  | .ok content headers loadTime =>
    if _is_bot_challenge content headers then .exhausted { st with gotCf := true }
    else if content ≠ "" ∧ content.length > 200 then .retSuccess content headers loadTime
    else .exhausted st
  | r =>
    let errStr := excStr r
    let lastError :=
      if strContains errStr "403" || strContains errStr "Client error" then "HTTP 403 Forbidden"
      else errStr
    .exhausted { st with lastError := lastError }

/-- The soft retryable HTTP statuses of the urllib fallback. -/
def softCodes : List Nat := [403, 406, 429, 503]

/-- The urllib fallback loop of `fetch_url` over the remaining header
profiles for one candidate URL.  Per profile: a challenge is remembered
and skipped; usable content returns; an `HTTPError` whose readable body is
substantial (> 500 chars) and not a challenge is accepted as content with
empty headers and load time `0.5`; otherwise a soft status continues with
the next profile while any other status returns `None, None, last_error`
immediately; a `URLError` abandons the remaining profiles (`break`); any
other exception records the message and continues. -/
def urllibLoop (net : Network) (u : String) : List Nat → FetchSt → LoopOut
  | [], st => .exhausted st
  | i :: rest, st =>
    match net u (.profile i) with
    | .ok content headers loadTime =>
      if _is_bot_challenge content headers then
        urllibLoop net u rest { st with gotCf := true }
      else if content ≠ "" ∧ content.length > 200 then .retSuccess content headers loadTime
      else urllibLoop net u rest st
    | .httpError code reason bodyOpt =>
      match bodyOpt with
      | some b =>
        if b ≠ "" ∧ b.length > 500 ∧ ¬ _is_bot_challenge b [] then .retSuccess b [] (1/2)
        else if code ∈ softCodes then
          urllibLoop net u rest { st with lastError := "HTTP " ++ toString code ++ " " ++ reason }
        else .retFailure ("HTTP " ++ toString code ++ " " ++ reason)
      | none =>
        if code ∈ softCodes then
          urllibLoop net u rest { st with lastError := "HTTP " ++ toString code ++ " " ++ reason }
        else .retFailure ("HTTP " ++ toString code ++ " " ++ reason)
    | .urlError reason => .exhausted { st with lastError := "Connection error: " ++ reason }
    | .exc msg => urllibLoop net u rest { st with lastError := msg }

/-- Profile indices tried by the urllib fallback, in `_HEADER_SETS` order. -/
def headerProfiles : List Nat := [0, 1, 2, 3, 4, 5]

/-- One candidate URL's attempts: the primary httpx step (when httpx is
importable) followed by the urllib profile loop. -/
def tryVariant (avail : Bool) (net : Network) (u : String) (st : FetchSt) : LoopOut :=
  match (if avail then httpxStep net u st else .exhausted st) with
  | .exhausted st' => urllibLoop net u headerProfiles st'
  | out => out

/-- The outer loop of `fetch_url` over the URL variants. -/
def fetchLoop (avail : Bool) (net : Network) : List String → FetchSt → LoopOut
  | [], st => .exhausted st
  | u :: rest, st =>
    match tryVariant avail net u st with
    | .exhausted st' => fetchLoop avail net rest st'
    | out => out

/-- Final failure message when a Cloudflare challenge was observed. -/
def cfBlockMsg : String :=
  "Cloudflare bot protection is blocking this site. " ++
  "To audit this site, add \x27NumikoAuditBot/1.0\x27 to the Cloudflare WAF allowlist, " ++
  "or temporarily disable Bot Fight Mode."

/-- Final generic failure message, wrapping the last concrete error. -/
def genericFailMsg (lastError : String) : String :=
  "Could not access this site (" ++ lastError ++ "). " ++
  "The site\x27s firewall is blocking requests from the audit server. " ++
  "For client sites, add \x27NumikoAuditBot/1.0\x27 to their Cloudflare WAF allowlist."

/-- The final returns of `fetch_url` after its loops: an early return is
passed through, and an exhausted loop returns the bot-protection message
when a challenge was remembered, else the generic message around
`last_error`. -/
def finishFetch : LoopOut → FetchResult
  | .retSuccess content headers loadTime => .success content headers loadTime
  | .retFailure reason => .failure reason
  | .exhausted st =>
    if st.gotCf then .failure cfBlockMsg
    else .failure (genericFailMsg st.lastError)

/-- Function `fetch_url(url)` from `src/scripts/seo_audit.py`, over the network
oracle and the httpx-availability flag (`_HTTPX_AVAILABLE`). -/
def fetch_url (avail : Bool) (net : Network) (url : String) : FetchResult :=
  finishFetch (fetchLoop avail net (_url_variants url) initSt)

/-- The meta-fact dictionary built by `extract_meta` (and by the blocked
branch of `run_audit`). -/
structure Meta where
  title : Option String
  description : Option String
  og_tags : Bool
  h1 : Option String
  jsonld_count : Nat
deriving DecidableEq

/-- The all-absent meta dictionary substituted when the page is blocked. -/
def emptyMeta : Meta :=
  { title := none, description := none, og_tags := false, h1 := none, jsonld_count := 0 }

/-- Python truthiness of an `Optional[str]`. -/
def truthyOpt : Option String → Bool
  | none => false
  | some s => s ≠ ""

/-- Result dictionary of `check_robots` (the `exists` and `ai_bots` keys). -/
structure RobotsFacts where
  exists' : Bool
  ai_bots : List String
deriving DecidableEq

/-- The fixed AI-bot vocabulary of `check_robots`. -/
def aiBotVocab : List String :=
  ["GPTBot", "PerplexityBot", "ClaudeBot", "anthropic-ai", "ChatGPT-User"]

/-- The vocabulary loop of `check_robots`: append each bot whose lowered
name occurs in the lowered robots body. -/
def botListLoop (content : String) : List String → List String → List String
  | [], acc => acc
  | bot :: rest, acc =>
    if strContains (strLower content) (strLower bot) then botListLoop content rest (acc ++ [bot])
    else botListLoop content rest acc

/-- The robots.txt URL `check_robots`/`check_sitemap` derive from a page
URL (`f"{parsed.scheme}://{parsed.netloc}/robots.txt"` and alike). -/
def hostFile (url : String) (file : String) : String :=
  let parsed := urlparse url
  parsed.scheme ++ "://" ++ parsed.netloc ++ file

/-- Function `check_robots(url)` from `src/scripts/seo_audit.py`. -/
def check_robots (avail : Bool) (net : Network) (url : String) : RobotsFacts :=
  match fetch_url avail net (hostFile url "/robots.txt") with
  | .success content _ _ =>
    if content ≠ "" then { exists' := true, ai_bots := botListLoop content aiBotVocab [] }
    else { exists' := false, ai_bots := [] }
  | .failure _ => { exists' := false, ai_bots := [] }

/-- Function `check_sitemap(url)` from `src/scripts/seo_audit.py`. -/
def check_sitemap (avail : Bool) (net : Network) (url : String) : Bool :=
  match fetch_url avail net (hostFile url "/sitemap.xml") with
  | .success content _ _ =>
    if content = "" then false
    else
      strContains (strLower content) "<urlset" ||
      strContains (strLower content) "<sitemapindex" ||
      strContains (strLower content) "<?xml"
  | .failure _ => false

/-- Value of the `load_time` variable as the scorer sees it: a float, a
failure string, or `None`. -/
inductive PyVal where
  | num (q : ℚ)
  | str (s : String)
  | none
deriving DecidableEq

/-- Models `isinstance(load_time, (int, float)) and load_time < 3`. -/
def loadTimeFast : PyVal → Bool
  | .num q => decide (q < 3)
  | _ => false

/-- Function `_calculate_score` from `src/webapp/services/audit_service.py`:
sequential accumulation of the eight weighted signals. -/
def _calculate_score (meta : Meta) (robots : RobotsFacts) (has_sitemap : Bool)
    (load_time : PyVal) (page_blocked : Bool) : Nat :=
  let score := 0
  let title := meta.title.getD ""
  let desc := meta.description.getD ""
  let score := if title ≠ "" then score + 15 else score
  let score := if desc ≠ "" then score + 10 else score
  let score := if meta.og_tags then score + 5 else score
  let score := if truthyOpt meta.h1 then score + 10 else score
  let score := if meta.jsonld_count > 0 then score + 20 else score
  let score := if robots.ai_bots ≠ [] then score + 15 else score
  let score := if has_sitemap then score + 10 else score
  let score := if loadTimeFast load_time then score + 15 else score
  score

/-- Models `round(load_time, 2)` (half-up at the third decimal; the banker's tie
case is unobserved by every claim). -/
def round2 (q : ℚ) : ℚ := ((q * 100 + 1/2).floor : ℚ) / 100

/-- The audit dictionary `run_audit` returns (backlink fields and
`sitemap_url`, which come from collaborators absent from the sources and
are touched by no claim, omitted). -/
structure AuditResult where
  url : String
  page_blocked : Bool
  block_reason : Option String
  title : String
  title_length : Nat
  title_ok : Bool
  description : String
  description_length : Nat
  description_ok : Bool
  og_tags : Bool
  h1 : Option String
  jsonld_count : Nat
  load_time : Option ℚ
  load_time_ok : Bool
  robots_exists : Bool
  ai_bots : List String
  has_sitemap : Bool
  score : Nat
deriving DecidableEq

/-- The URL normalisation inside `run_audit`:
`if not url.startswith('http'): url = f'https://{url}'`. -/
def normalize_url (url : String) : String :=
  if strStartsWith url "http" then url else "https://" ++ url

/-- The body of `run_audit(url)` from
`src/webapp/services/audit_service.py` after the scheme gate, on the
normalised URL `u`, over the network oracle, the httpx flag, and an
arbitrary `extract_meta` model `em`.  On a fetch failure the error string
is the block reason (`fetch_url`'s failure third component is always a
string, so the `isinstance(load_time, str)` guard of the source is always
met there). -/
def audit_result (avail : Bool) (em : String → Meta) (net : Network) (u : String) :
    AuditResult :=
    let step :=
      match fetch_url avail net u with
      | .failure reason => (emptyMeta, true, some reason, PyVal.none)
      | .success content _ loadTime => (em content, false, Option.none, PyVal.num loadTime)
    let meta := step.1
    let page_blocked := step.2.1
    let block_reason := step.2.2.1
    let load_time := step.2.2.2
    let robots := check_robots avail net u
    let has_sitemap := check_sitemap avail net u
    let title := meta.title.getD ""
    let description := meta.description.getD ""
    {
      url := u
      page_blocked := page_blocked
      block_reason := block_reason
      title := title
      title_length := title.length
      title_ok := 0 < title.length ∧ title.length ≤ 60
      description := description
      description_length := description.length
      description_ok := 0 < description.length ∧ description.length ≤ 155
      og_tags := meta.og_tags
      h1 := meta.h1
      jsonld_count := meta.jsonld_count
      load_time := match load_time with | .num q => some (round2 q) | _ => Option.none
      load_time_ok := loadTimeFast load_time
      robots_exists := robots.exists'
      ai_bots := robots.ai_bots
      has_sitemap := has_sitemap
      score := _calculate_score meta robots has_sitemap load_time page_blocked }

/-- Function `run_audit(url)` from `src/webapp/services/audit_service.py`: raise
`ValueError` (the `Except.error` branch) for a non-empty scheme other than
http/https, else normalise the URL and assemble the audit dictionary. -/
def run_audit (avail : Bool) (em : String → Meta) (net : Network) (url : String) :
    Except String AuditResult :=
  let parsed := urlparse url
  if parsed.scheme ≠ "" ∧ parsed.scheme ∉ ["http", "https"] then
    .error ("Unsupported URL scheme: " ++ parsed.scheme ++ ". Only http and https are allowed.")
  else
    .ok (audit_result avail em net (normalize_url url))


/-- Modelled from the spec: the eight-signal weighted point table of spec
section 4.3, each signal contributing independently and summed. -/
def scoreSpecTable (meta : Meta) (robots : RobotsFacts) (has_sitemap : Bool)
    (load_time : PyVal) : Nat :=
  (if meta.title.getD "" ≠ "" then 15 else 0) +
  (if meta.description.getD "" ≠ "" then 10 else 0) +
  (if meta.og_tags then 5 else 0) +
  (if meta.h1.getD "" ≠ "" then 10 else 0) +
  (if 0 < meta.jsonld_count then 20 else 0) +
  (if robots.ai_bots ≠ [] then 15 else 0) +
  (if has_sitemap then 10 else 0) +
  (match load_time with | .num q => if q < 3 then 15 else 0 | _ => 0)

/-- A server that answers every URL and strategy with the same decoded
response. -/
def constNet (body : String) (h : List (String × String)) (t : ℚ) : Network :=
  fun _ _ => .ok body h t

/-- A usable page body: 201 characters, no challenge signature. -/
def c3goodBody : String := String.mk (List.replicate 201 'g')

def c3goodNet : Network := fun _ _ => .ok c3goodBody [] 1

/-- A challenge body longer than the 200-character usability threshold. -/
def c3cfBody : String := "cf_chl_opt" ++ String.mk (List.replicate 195 'x')

def c3cfNet : Network := fun _ _ => .ok c3cfBody [] 1

/-- Usable non-challenge content served by the paired variant in the C4
counterexample network. -/
def c4goodBody : String := String.mk (List.replicate 300 'g')

/-- A server where the www host's primary attempt raises, its first urllib
profile gets a hard HTTP 500 with a short readable error page, and the
paired non-www host would serve usable content. -/
def c4net : Network := fun u s =>
  if u = "https://www.example.com" then
    match s with
    | .primary => .exc "connection reset"
    | .profile _ => .httpError 500 "Internal Server Error" (some "oops")
  else .ok c4goodBody [] 1

/-- A server whose first urllib profile gets a soft 403 and whose second
gets a hard 500, both with short readable error bodies that fail the
500-character salvage guard; the primary attempt raises. -/
def c4wNet : Network := fun _ s =>
  match s with
  | .primary => .exc "boom"
  | .profile 0 => .httpError 403 "Forbidden" (some "Forbidden")
  | .profile _ => .httpError 500 "Internal Server Error" (some "Server Error")

/-- A robots.txt body that names GPTBot and exceeds the 200-character
usability threshold. -/
def c2robotsBody : String :=
  "User-agent: GPTBot\nAllow: /\n" ++ String.mk (List.replicate 200 'x')

/-- A sitemap body with a urlset element, exceeding the threshold. -/
def c2sitemapBody : String :=
  "<?xml version=\x221.0\x22?><urlset>" ++ String.mk (List.replicate 200 'u')

/-- A server that answers robots.txt and sitemap.xml but refuses every
page fetch. -/
def c2net : Network := fun u _ =>
  if strContains u "/robots.txt" then .ok c2robotsBody [] 1
  else if strContains u "/sitemap.xml" then .ok c2sitemapBody [] 1
  else .urlError "refused"

/-- A network that refuses everything (connection errors only). -/
def c7netA : Network := fun _ _ => .urlError "nope"

/-- A network that raises a non-URLError exception everywhere. -/
def c7netB : Network := fun _ _ => .exc "other"

lemma str_pos_iff (s : String) : 0 < s.length ↔ s ≠ "" := by
  constructor
  · intro h he
    subst he
    simp [String.length] at h
  · intro h
    cases s with
    | mk l =>
      cases l with
      | nil => simp at h
      | cons c t => simp [String.length]

lemma append_ne_empty_left (a b : String) (ha : a ≠ "") : a ++ b ≠ "" := by
  intro h
  have hl := congrArg String.length h
  rw [String.length_append] at hl
  have ha' : 0 < a.length := (str_pos_iff a).mpr ha
  have h0 : ("" : String).length = 0 := rfl
  rw [h0] at hl
  omega

lemma truthyOpt_iff (o : Option String) : truthyOpt o = true ↔ o.getD "" ≠ "" := by
  cases o <;> simp [truthyOpt]

lemma ite_add_shift (c : Prop) [Decidable c] (x n : ℕ) :
    (if c then x + n else x) = x + (if c then n else 0) := by
  split_ifs <;> omega

lemma urllibLoop_success (net : Network) (u : String) :
    ∀ ps st c h t, urllibLoop net u ps st = .retSuccess c h t →
      _is_bot_challenge c h = false ∧ c ≠ "" := by
  intro ps
  induction ps with
  | nil => intro st c h t hc; exact (LoopOut.noConfusion hc)
  | cons i rest ih =>
    intro st c h t heq
    rcases hnet : net u (.profile i) with ⟨c', h', t'⟩ | ⟨code, reason, bodyOpt⟩ | reason | msg
    · simp only [urllibLoop, hnet] at heq
      split_ifs at heq <;>
        first
          | exact ih _ _ _ _ heq
          | exact LoopOut.noConfusion heq
          | (cases heq; simp_all)
    · cases bodyOpt with
      | some b =>
        simp only [urllibLoop, hnet] at heq
        split_ifs at heq <;>
          first
            | exact ih _ _ _ _ heq
            | exact LoopOut.noConfusion heq
            | (cases heq; simp_all)
      | none =>
        simp only [urllibLoop, hnet] at heq
        split_ifs at heq <;>
          first
            | exact ih _ _ _ _ heq
            | exact LoopOut.noConfusion heq
    · simp only [urllibLoop, hnet] at heq
      exact LoopOut.noConfusion heq
    · simp only [urllibLoop, hnet] at heq
      exact ih _ _ _ _ heq

lemma httpxStep_success (net : Network) (u : String) (st : FetchSt) (c : String)
    (h : List (String × String)) (t : ℚ) (heq : httpxStep net u st = .retSuccess c h t) :
    _is_bot_challenge c h = false ∧ c ≠ "" := by
  rcases hnet : net u .primary with ⟨c', h', t'⟩ | ⟨code, reason, bodyOpt⟩ | reason | msg <;>
    simp only [httpxStep, hnet] at heq
  · split_ifs at heq <;>
      first
        | exact LoopOut.noConfusion heq
        | (cases heq; simp_all)
  · exact LoopOut.noConfusion heq
  · exact LoopOut.noConfusion heq
  · exact LoopOut.noConfusion heq

lemma tryVariant_success (avail : Bool) (net : Network) (u : String) (st : FetchSt)
    (c : String) (h : List (String × String)) (t : ℚ)
    (heq : tryVariant avail net u st = .retSuccess c h t) :
    _is_bot_challenge c h = false ∧ c ≠ "" := by
  unfold tryVariant at heq
  rcases hx : (if avail then httpxStep net u st else .exhausted st) with ⟨c', h', t'⟩ | r | st' <;>
    rw [hx] at heq
  · cases heq
    rcases avail with _ | _
    · simp at hx
    · simp at hx
      exact httpxStep_success net u st _ _ _ hx
  · exact LoopOut.noConfusion heq
  · exact urllibLoop_success net u _ _ _ _ _ heq

lemma fetchLoop_success (avail : Bool) (net : Network) :
    ∀ us st c h t, fetchLoop avail net us st = .retSuccess c h t →
      _is_bot_challenge c h = false ∧ c ≠ "" := by
  intro us
  induction us with
  | nil => intro st c h t hc; exact (LoopOut.noConfusion hc)
  | cons u rest ih =>
    intro st c h t heq
    rcases hx : tryVariant avail net u st with ⟨c', h', t'⟩ | r | st' <;>
      simp only [fetchLoop, hx] at heq
    · cases heq
      exact tryVariant_success avail net u st _ _ _ hx
    · exact LoopOut.noConfusion heq
    · exact ih _ _ _ _ heq

lemma fetch_url_success (avail : Bool) (net : Network) (url : String) (c : String)
    (h : List (String × String)) (t : ℚ)
    (heq : fetch_url avail net url = .success c h t) :
    _is_bot_challenge c h = false ∧ c ≠ "" := by
  unfold fetch_url at heq
  rcases hx : fetchLoop avail net (_url_variants url) initSt with ⟨c', h', t'⟩ | r | st' <;>
    rw [hx] at heq <;> simp only [finishFetch] at heq
  · cases heq
    exact fetchLoop_success avail net _ _ _ _ _ hx
  · exact FetchResult.noConfusion heq
  · split_ifs at heq <;> exact FetchResult.noConfusion heq

lemma urllibLoop_retFailure (net : Network) (u : String) :
    ∀ ps st r, urllibLoop net u ps st = .retFailure r →
      ∃ (code : Nat) (reason : String), r = "HTTP " ++ toString code ++ " " ++ reason := by
  intro ps
  induction ps with
  | nil => intro st r hc; exact (LoopOut.noConfusion hc)
  | cons i rest ih =>
    intro st r heq
    rcases hnet : net u (.profile i) with ⟨c', h', t'⟩ | ⟨code, reason, bodyOpt⟩ | reason | msg
    · simp only [urllibLoop, hnet] at heq
      split_ifs at heq <;>
        first
          | exact ih _ _ heq
          | exact LoopOut.noConfusion heq
    · cases bodyOpt with
      | some b =>
        simp only [urllibLoop, hnet] at heq
        split_ifs at heq <;>
          first
            | exact ih _ _ heq
            | exact LoopOut.noConfusion heq
            | (cases heq; exact ⟨code, reason, rfl⟩)
      | none =>
        simp only [urllibLoop, hnet] at heq
        split_ifs at heq <;>
          first
            | exact ih _ _ heq
            | (cases heq; exact ⟨code, reason, rfl⟩)
    · simp only [urllibLoop, hnet] at heq
      exact LoopOut.noConfusion heq
    · simp only [urllibLoop, hnet] at heq
      exact ih _ _ heq

lemma httpxStep_no_retFailure (net : Network) (u : String) (st : FetchSt) (r : String)
    (heq : httpxStep net u st = .retFailure r) : False := by
  rcases hnet : net u .primary with ⟨c', h', t'⟩ | ⟨code, reason, bodyOpt⟩ | reason | msg <;>
    simp only [httpxStep, hnet] at heq
  · split_ifs at heq <;> exact LoopOut.noConfusion heq
  · exact LoopOut.noConfusion heq
  · exact LoopOut.noConfusion heq
  · exact LoopOut.noConfusion heq

lemma tryVariant_retFailure (avail : Bool) (net : Network) (u : String) (st : FetchSt)
    (r : String) (heq : tryVariant avail net u st = .retFailure r) :
    ∃ (code : Nat) (reason : String), r = "HTTP " ++ toString code ++ " " ++ reason := by
  unfold tryVariant at heq
  rcases hx : (if avail then httpxStep net u st else .exhausted st) with ⟨c', h', t'⟩ | r' | st' <;>
    rw [hx] at heq
  · exact LoopOut.noConfusion heq
  · cases heq
    rcases avail with _ | _
    · simp at hx
    · simp at hx
      exact absurd hx (fun hh => httpxStep_no_retFailure net u st _ hh)
  · exact urllibLoop_retFailure net u _ _ _ heq

lemma fetchLoop_retFailure (avail : Bool) (net : Network) :
    ∀ us st r, fetchLoop avail net us st = .retFailure r →
      ∃ (code : Nat) (reason : String), r = "HTTP " ++ toString code ++ " " ++ reason := by
  intro us
  induction us with
  | nil => intro st r hc; exact (LoopOut.noConfusion hc)
  | cons u rest ih =>
    intro st r heq
    rcases hx : tryVariant avail net u st with ⟨c', h', t'⟩ | r' | st' <;>
      simp only [fetchLoop, hx] at heq
    · exact LoopOut.noConfusion heq
    · cases heq
      exact tryVariant_retFailure avail net u st _ hx
    · exact ih _ _ heq

lemma cfBlockMsg_ne_empty : cfBlockMsg ≠ "" := by decide

lemma genericFailMsg_ne_empty (e : String) : genericFailMsg e ≠ "" := by
  unfold genericFailMsg
  apply append_ne_empty_left
  apply append_ne_empty_left
  apply append_ne_empty_left
  apply append_ne_empty_left
  decide

lemma fetch_url_failure_ne_empty (avail : Bool) (net : Network) (url : String) (r : String)
    (heq : fetch_url avail net url = .failure r) : r ≠ "" := by
  unfold fetch_url at heq
  rcases hx : fetchLoop avail net (_url_variants url) initSt with ⟨c', h', t'⟩ | r' | st' <;>
    rw [hx] at heq <;> simp only [finishFetch] at heq
  · exact FetchResult.noConfusion heq
  · cases heq
    obtain ⟨code, reason, hr⟩ := fetchLoop_retFailure avail net _ _ _ hx
    subst hr
    apply append_ne_empty_left
    apply append_ne_empty_left
    apply append_ne_empty_left
    decide
  · split_ifs at heq <;> cases heq
    · exact cfBlockMsg_ne_empty
    · exact genericFailMsg_ne_empty _

lemma generic_second_char (e : String) : (genericFailMsg e).data[1]? = some 'o' := by
  unfold genericFailMsg
  rw [String.data_append, String.data_append, String.data_append, String.data_append]
  rw [List.getElem?_append_left (by simp [List.length_append]),
      List.getElem?_append_left (by simp [List.length_append]),
      List.getElem?_append_left (by simp [List.length_append]),
      List.getElem?_append_left (by decide)]
  decide

set_option maxRecDepth 4000 in
lemma cf_second_char : cfBlockMsg.data[1]? = some 'l' := by
  unfold cfBlockMsg
  rw [String.data_append, String.data_append]
  rw [List.getElem?_append_left (by simp [List.length_append]),
      List.getElem?_append_left (by decide)]
  decide

lemma cfBlockMsg_ne_generic (e : String) : cfBlockMsg ≠ genericFailMsg e := by
  intro h
  have h1 := cf_second_char
  rw [h] at h1
  rw [generic_second_char e] at h1
  simp at h1

set_option maxRecDepth 8000 in
lemma cf_mentions : strContains cfBlockMsg "bot protection" = true ∧
    strContains cfBlockMsg "allowlist" = true := by decide

lemma botListLoop_eq_filter (content : String) :
    ∀ (l acc : List String),
      botListLoop content l acc =
        acc ++ l.filter (fun bot => strContains (strLower content) (strLower bot)) := by
  intro l
  induction l with
  | nil => intro acc; simp [botListLoop]
  | cons b t ih =>
    intro acc
    by_cases hb : strContains (strLower content) (strLower b) = true <;>
      simp [botListLoop, hb, ih, List.filter_cons]

lemma urllibLoop_const_short (body : String) (h : List (String × String)) (t : ℚ)
    (hlen : body.length ≤ 200) (u : String) :
    ∀ (ps : List Nat) (st : FetchSt), ∃ st',
      urllibLoop (constNet body h t) u ps st = .exhausted st' := by
  intro ps
  induction ps with
  | nil => intro st; exact ⟨st, rfl⟩
  | cons i rest ih =>
    intro st
    have hno : ¬ (body ≠ "" ∧ body.length > 200) := fun hc => by omega
    by_cases hch : _is_bot_challenge body h = true <;>
      simp only [urllibLoop, constNet, hch, hno, if_true, if_false, ite_true, ite_false,
        Bool.false_eq_true] <;>
      exact ih _
  
lemma httpxStep_const_short (body : String) (h : List (String × String)) (t : ℚ)
    (hlen : body.length ≤ 200) (u : String) (st : FetchSt) :
    ∃ st', httpxStep (constNet body h t) u st = .exhausted st' := by
  have hno : ¬ (body ≠ "" ∧ body.length > 200) := fun hc => by omega
  by_cases hch : _is_bot_challenge body h = true <;>
    simp only [httpxStep, constNet, hch, hno, if_true, if_false, ite_true, ite_false,
      Bool.false_eq_true]
  · exact ⟨_, rfl⟩
  · exact ⟨_, rfl⟩

lemma tryVariant_const_short (body : String) (h : List (String × String)) (t : ℚ)
    (hlen : body.length ≤ 200) (avail : Bool) (u : String) (st : FetchSt) :
    ∃ st', tryVariant avail (constNet body h t) u st = .exhausted st' := by
  unfold tryVariant
  rcases avail with _ | _
  · simp only [if_false, Bool.false_eq_true, ite_false]
    exact urllibLoop_const_short body h t hlen u _ _
  · simp only [if_true, ite_true]
    obtain ⟨st1, hst1⟩ := httpxStep_const_short body h t hlen u st
    rw [hst1]
    exact urllibLoop_const_short body h t hlen u _ _

lemma fetchLoop_const_short (body : String) (h : List (String × String)) (t : ℚ)
    (hlen : body.length ≤ 200) (avail : Bool) :
    ∀ (us : List String) (st : FetchSt), ∃ st',
      fetchLoop avail (constNet body h t) us st = .exhausted st' := by
  intro us
  induction us with
  | nil => intro st; exact ⟨st, rfl⟩
  | cons u rest ih =>
    intro st
    obtain ⟨st1, hst1⟩ := tryVariant_const_short body h t hlen avail u st
    simp only [fetchLoop, hst1]
    exact ih _

lemma fetch_url_const_short (body : String) (h : List (String × String)) (t : ℚ)
    (hlen : body.length ≤ 200) (avail : Bool) (url : String) :
    ∃ r, fetch_url avail (constNet body h t) url = .failure r := by
  unfold fetch_url
  obtain ⟨st', hst'⟩ := fetchLoop_const_short body h t hlen avail (_url_variants url) initSt
  rw [hst']
  by_cases hcf : st'.gotCf = true <;> simp [finishFetch, hcf]

lemma url_variants_head (url : String) : ∃ tl, _url_variants url = url :: tl := by
  unfold _url_variants
  dsimp only
  split_ifs <;> exact ⟨_, rfl⟩

/-- C1: the score is exactly the sum of the eight independent signal
contributions of the weighted table, and in particular all-signals-present
scores exactly 100, all-absent exactly 0, and title + description +
sitemap exactly 35. -/
theorem claim1_score_is_signal_sum :
    (∀ (meta : Meta) (robots : RobotsFacts) (hs : Bool) (lt : PyVal) (pb : Bool),
       _calculate_score meta robots hs lt pb = scoreSpecTable meta robots hs lt) ∧
    _calculate_score
      { title := some "My Page", description := some "A description",
        og_tags := true, h1 := some "Heading", jsonld_count := 1 }
      { exists' := true, ai_bots := ["GPTBot"] } true (.num 1) false = 100 ∧
    _calculate_score emptyMeta { exists' := false, ai_bots := [] } false .none false = 0 ∧
    _calculate_score
      { emptyMeta with title := some "The title", description := some "The description" }
      { exists' := false, ai_bots := [] } true .none false = 35 := by
  refine ⟨?_, by decide, by decide, by decide⟩
  intro meta robots hs lt pb
  cases lt <;>
    simp only [_calculate_score, scoreSpecTable, loadTimeFast, truthyOpt_iff,
      decide_eq_true_eq, gt_iff_lt, ite_add_shift, Bool.false_eq_true, if_false,
      ite_false] <;>
    omega

/-- C6: the load-time signal is a strict less-than-3.0 comparison — a
numeric 2.99 adds exactly 15 points over the absent case, while 3.0, 3.01,
an absent load time, and a failure string add exactly 0. -/
theorem claim6_load_time_boundary :
    ∀ (meta : Meta) (robots : RobotsFacts) (hs : Bool) (pb : Bool),
      _calculate_score meta robots hs (.num (299/100)) pb
        = _calculate_score meta robots hs .none pb + 15 ∧
      _calculate_score meta robots hs (.num 3) pb = _calculate_score meta robots hs .none pb ∧
      _calculate_score meta robots hs (.num (301/100)) pb
        = _calculate_score meta robots hs .none pb ∧
      ∀ s, _calculate_score meta robots hs (.str s) pb
        = _calculate_score meta robots hs .none pb := by
  intro meta robots hs pb
  have h1 : loadTimeFast (.num (299/100)) = true := by
    simp only [loadTimeFast, decide_eq_true_eq]
    norm_num
  have h2 : loadTimeFast (.num 3) = false := by
    simp only [loadTimeFast, decide_eq_false_iff_not]
    norm_num
  have h3 : loadTimeFast (.num (301/100)) = false := by
    simp only [loadTimeFast, decide_eq_false_iff_not]
    norm_num
  have h0 : loadTimeFast .none = false := rfl
  have h4 : ∀ s, loadTimeFast (.str s) = false := fun _ => rfl
  refine ⟨?_, ?_, ?_, fun s => ?_⟩ <;>
    simp only [_calculate_score, h0, h1, h2, h3, h4, if_true, if_false,
      Bool.false_eq_true, ite_false, ite_true]

/-- C8: the score never reads the `page_blocked` argument — two calls with
identical fact fields but different `page_blocked` values are equal. -/
theorem claim8_score_ignores_page_blocked :
    ∀ (meta : Meta) (robots : RobotsFacts) (hs : Bool) (lt : PyVal) (pb pb' : Bool),
      _calculate_score meta robots hs lt pb = _calculate_score meta robots hs lt pb' :=
  fun _ _ _ _ _ _ => rfl

/-- C3: a bot-challenge page is never returned as successful content, and
an exhausted fetch that observed a challenge fails with the dedicated
bot-protection message, which names an allow-listing remedy and differs
from every generic unreachable message. -/
theorem claim3_challenge_never_success :
    (∀ (avail : Bool) (net : Network) (url content : String)
       (headers : List (String × String)) (loadTime : ℚ),
       fetch_url avail net url = .success content headers loadTime →
       _is_bot_challenge content headers = false) ∧
    (∀ (avail : Bool) (net : Network) (url : String) (st : FetchSt),
       fetchLoop avail net (_url_variants url) initSt = .exhausted st →
       st.gotCf = true →
       fetch_url avail net url = .failure cfBlockMsg) ∧
    strContains cfBlockMsg "bot protection" = true ∧
    strContains cfBlockMsg "allowlist" = true ∧
    (∀ lastError : String, cfBlockMsg ≠ genericFailMsg lastError) := by
  refine ⟨?_, ?_, cf_mentions.1, cf_mentions.2, cfBlockMsg_ne_generic⟩
  · intro avail net url content headers loadTime heq
    exact (fetch_url_success avail net url content headers loadTime heq).1
  · intro avail net url st heq hcf
    unfold fetch_url
    rw [heq]
    simp [finishFetch, hcf]

set_option maxRecDepth 100000 in
theorem claim3_witness :
    _is_bot_challenge c3goodBody [] = false ∧
    fetch_url true c3cfNet "https://example.com" = .failure cfBlockMsg ∧
    cfBlockMsg ≠ genericFailMsg "Unknown error" :=
  ⟨claim3_challenge_never_success.1 true c3goodNet "https://example.com" c3goodBody [] 1 (by decide),
   claim3_challenge_never_success.2.1 true c3cfNet "https://example.com"
     { lastError := "Unknown error", gotCf := true } (by decide) rfl,
   claim3_challenge_never_success.2.2.2.2 "Unknown error"⟩

/-- C9: `check_robots` reports `exists` true exactly when content was
retrieved, and its AI-bot list is exactly the sublist of the fixed
five-name vocabulary whose names occur case-insensitively in the robots
body — in particular it never contains a name outside the vocabulary. -/
theorem claim9_robots_vocabulary :
    ∀ (avail : Bool) (net : Network) (url : String),
      (∀ b ∈ (check_robots avail net url).ai_bots, b ∈ aiBotVocab) ∧
      (match fetch_url avail net (hostFile url "/robots.txt") with
       | .success content _ _ =>
         (check_robots avail net url).exists' = true ∧
         (check_robots avail net url).ai_bots =
           aiBotVocab.filter (fun bot => strContains (strLower content) (strLower bot))
       | .failure _ =>
         (check_robots avail net url).exists' = false ∧
         (check_robots avail net url).ai_bots = []) := by
  intro avail net url
  rcases hf : fetch_url avail net (hostFile url "/robots.txt") with ⟨content, h, t⟩ | reason
  · have hne : content ≠ "" := (fetch_url_success avail net _ content h t hf).2
    have hcr : check_robots avail net url =
        { exists' := true,
          ai_bots := aiBotVocab.filter
            (fun bot => strContains (strLower content) (strLower bot)) } := by
      unfold check_robots
      rw [hf]
      simp [hne, botListLoop_eq_filter]
    refine ⟨?_, ?_⟩
    · intro b hb
      rw [hcr] at hb
      simp only at hb
      exact (List.mem_filter.mp hb).1
    · simp [hcr]
  · have hcr : check_robots avail net url = { exists' := false, ai_bots := [] } := by
      unfold check_robots
      rw [hf]
    refine ⟨?_, ?_⟩
    · intro b hb
      rw [hcr] at hb
      simp at hb
    · simp [hcr]

/-- C10: because robots.txt and sitemap.xml are fetched through the same
multi-strategy fetcher, a server whose every response body is 200
characters or shorter is reported as having no robots.txt and no
sitemap, even though it answers both files. -/
theorem claim10_short_body_threshold (avail : Bool) (body : String)
    (h : List (String × String)) (t : ℚ) (url : String) (hlen : body.length ≤ 200) :
    (check_robots avail (constNet body h t) url).exists' = false ∧
    (check_robots avail (constNet body h t) url).ai_bots = [] ∧
    check_sitemap avail (constNet body h t) url = false := by
  obtain ⟨r1, hr1⟩ := fetch_url_const_short body h t hlen avail (hostFile url "/robots.txt")
  obtain ⟨r2, hr2⟩ := fetch_url_const_short body h t hlen avail (hostFile url "/sitemap.xml")
  refine ⟨?_, ?_, ?_⟩
  · unfold check_robots
    rw [hr1]
  · unfold check_robots
    rw [hr1]
  · unfold check_sitemap
    rw [hr2]

set_option maxRecDepth 100000 in
theorem claim10_witness :
    ("User-agent: *".length ≤ 200) ∧
    (check_robots true (constNet "User-agent: *" [] 1) "https://example.com").exists' = false ∧
    check_sitemap true (constNet "User-agent: *" [] 1) "https://example.com" = false :=
  ⟨by decide,
   (claim10_short_body_threshold true "User-agent: *" [] 1 "https://example.com" (by decide)).1,
   (claim10_short_body_threshold true "User-agent: *" [] 1 "https://example.com" (by decide)).2.2⟩

/-- C4 (amended): in the urllib header-profile strategy an HTTP error
whose body is not salvaged — the read raised, or the body is empty, at
most 500 characters, or itself a challenge — continues with the next
profile when the status is one of 403/406/429/503, but any other status
makes `fetch_url` return failure immediately — it does not finish the
profile list and does not try the paired www/non-www variant. -/
theorem claim4_soft_statuses :
    (∀ (net : Network) (u : String) (i : Nat) (rest : List Nat) (st : FetchSt)
       (code : Nat) (reason : String) (bodyOpt : Option String),
       net u (.profile i) = .httpError code reason bodyOpt →
       (∀ b, bodyOpt = some b → ¬ (b ≠ "" ∧ b.length > 500 ∧ ¬ _is_bot_challenge b [])) →
       code ∈ softCodes →
       urllibLoop net u (i :: rest) st =
         urllibLoop net u rest
           { st with lastError := "HTTP " ++ toString code ++ " " ++ reason }) ∧
    (∀ (net : Network) (u : String) (i : Nat) (rest : List Nat) (st : FetchSt)
       (code : Nat) (reason : String) (bodyOpt : Option String),
       net u (.profile i) = .httpError code reason bodyOpt →
       (∀ b, bodyOpt = some b → ¬ (b ≠ "" ∧ b.length > 500 ∧ ¬ _is_bot_challenge b [])) →
       code ∉ softCodes →
       urllibLoop net u (i :: rest) st =
         .retFailure ("HTTP " ++ toString code ++ " " ++ reason)) ∧
    (∀ (avail : Bool) (net : Network) (url r : String),
       tryVariant avail net url initSt = .retFailure r →
       fetch_url avail net url = .failure r) := by
  refine ⟨?_, ?_, ?_⟩
  · intro net u i rest st code reason bodyOpt hnet hbody hsoft
    cases bodyOpt with
    | none => simp only [urllibLoop, hnet, hsoft, if_true, ite_true]
    | some b =>
      have hb := hbody b rfl
      simp only [urllibLoop, hnet]
      rw [if_neg hb, if_pos hsoft]
  · intro net u i rest st code reason bodyOpt hnet hbody hsoft
    cases bodyOpt with
    | none => simp only [urllibLoop, hnet, hsoft, if_false, ite_false]
    | some b =>
      have hb := hbody b rfl
      simp only [urllibLoop, hnet]
      rw [if_neg hb, if_neg hsoft]
  · intro avail net url r htv
    obtain ⟨tl, hv⟩ := url_variants_head url
    unfold fetch_url
    rw [hv]
    simp only [fetchLoop, htv]
    rfl

set_option maxRecDepth 100000 in
theorem claim4_counterexample :
    fetch_url true c4net "https://www.example.com" = .failure "HTTP 500 Internal Server Error" ∧
    c4net "https://example.com" .primary = .ok c4goodBody [] 1 ∧
    c4goodBody.length > 200 ∧
    _is_bot_challenge c4goodBody [] = false ∧
    fetch_url true c4net "https://www.example.com" ≠ .success c4goodBody [] 1 := by
  refine ⟨by decide, by decide, by decide, by decide, by decide⟩

set_option maxRecDepth 100000 in
theorem claim4_witness :
    (urllibLoop c4wNet "https://example.com" (0 :: [1, 2, 3, 4, 5]) initSt =
      urllibLoop c4wNet "https://example.com" [1, 2, 3, 4, 5]
        { initSt with lastError := "HTTP " ++ toString 403 ++ " " ++ "Forbidden" }) ∧
    (urllibLoop c4wNet "https://example.com" (1 :: [2, 3, 4, 5]) initSt =
      .retFailure ("HTTP " ++ toString 500 ++ " " ++ "Internal Server Error")) ∧
    fetch_url true c4wNet "https://example.com" = .failure "HTTP 500 Internal Server Error" :=
  ⟨claim4_soft_statuses.1 c4wNet "https://example.com" 0 [1, 2, 3, 4, 5] initSt 403 "Forbidden"
     (some "Forbidden") (by decide)
     (by intro b hb; injection hb with h; subst h; decide) (by decide),
   claim4_soft_statuses.2.1 c4wNet "https://example.com" 1 [2, 3, 4, 5] initSt 500
     "Internal Server Error" (some "Server Error") (by decide)
     (by intro b hb; injection hb with h; subst h; decide) (by decide),
   claim4_soft_statuses.2.2 true c4wNet "https://example.com" "HTTP 500 Internal Server Error"
     (by decide)⟩

/-- C5: `run_audit` raises exactly when the input URL has a non-empty
scheme other than http/https; every other input produces an
`AuditResult`, whatever the network, however the fetches fail, and
whatever the extractor does. -/
theorem claim5_raise_iff_bad_scheme :
    ∀ (avail : Bool) (em : String → Meta) (net : Network) (url : String),
      (∃ e, run_audit avail em net url = .error e) ↔
        ((urlparse url).scheme ≠ "" ∧ (urlparse url).scheme ∉ ["http", "https"]) := by
  intro avail em net url
  by_cases hc : (urlparse url).scheme ≠ "" ∧ (urlparse url).scheme ∉ ["http", "https"]
  · refine ⟨fun _ => hc, fun _ =>
      ⟨"Unsupported URL scheme: " ++ (urlparse url).scheme ++
        ". Only http and https are allowed.", ?_⟩⟩
    simp only [run_audit]
    rw [if_pos hc]
  · constructor
    · rintro ⟨e, he⟩
      simp only [run_audit] at he
      rw [if_neg hc] at he
      exact Except.noConfusion he
    · intro h2
      exact absurd h2 hc

/-- C2: with a valid scheme, a failed main-page fetch still yields an
`AuditResult`: `page_blocked` is set, the block reason is the fetcher's
non-empty failure string, every page fact is empty/default, the load time
is null, the robots and sitemap checks are still performed and reported,
and with AI bots allowed plus a sitemap present and nothing else the score
is exactly 25. -/
theorem claim2_blocked_partial_result (avail : Bool) (em : String → Meta) (net : Network)
    (url r : String)
    (hscheme : (urlparse url).scheme = "" ∨ (urlparse url).scheme = "http" ∨
      (urlparse url).scheme = "https")
    (hfail : fetch_url avail net (normalize_url url) = .failure r) :
    ∃ res, run_audit avail em net url = .ok res ∧
      res.page_blocked = true ∧
      res.block_reason = some r ∧ r ≠ "" ∧
      res.title = "" ∧ res.description = "" ∧ res.og_tags = false ∧ res.h1 = none ∧
      res.jsonld_count = 0 ∧ res.load_time = none ∧
      res.robots_exists = (check_robots avail net (normalize_url url)).exists' ∧
      res.ai_bots = (check_robots avail net (normalize_url url)).ai_bots ∧
      res.has_sitemap = check_sitemap avail net (normalize_url url) ∧
      ((check_robots avail net (normalize_url url)).ai_bots ≠ [] →
        check_sitemap avail net (normalize_url url) = true → res.score = 25) := by
  have hcond : ¬((urlparse url).scheme ≠ "" ∧ (urlparse url).scheme ∉ ["http", "https"]) := by
    rcases hscheme with h | h | h <;> simp [h]
  have hrun : run_audit avail em net url = .ok (audit_result avail em net (normalize_url url)) := by
    simp only [run_audit]
    rw [if_neg hcond]
  have hres : audit_result avail em net (normalize_url url) =
      { url := normalize_url url
        page_blocked := true
        block_reason := some r
        title := ""
        title_length := 0
        title_ok := false
        description := ""
        description_length := 0
        description_ok := false
        og_tags := false
        h1 := none
        jsonld_count := 0
        load_time := none
        load_time_ok := false
        robots_exists := (check_robots avail net (normalize_url url)).exists'
        ai_bots := (check_robots avail net (normalize_url url)).ai_bots
        has_sitemap := check_sitemap avail net (normalize_url url)
        score := _calculate_score emptyMeta (check_robots avail net (normalize_url url))
          (check_sitemap avail net (normalize_url url)) .none true } := by
    unfold audit_result
    rw [hfail]
    rfl
  refine ⟨audit_result avail em net (normalize_url url), hrun, ?_, ?_,
    fetch_url_failure_ne_empty avail net _ r hfail, ?_, ?_, ?_, ?_, ?_, ?_, ?_, ?_, ?_, ?_⟩ <;>
    rw [hres]
  intro hb hsm
  rw [hsm]
  simp [_calculate_score, emptyMeta, truthyOpt, loadTimeFast, hb]

set_option maxRecDepth 400000 in
theorem claim2_witness :
    ∃ res, run_audit true (fun _ => emptyMeta) c2net "https://example.com" = .ok res ∧
      res.page_blocked = true ∧
      res.block_reason = some (genericFailMsg "Connection error: refused") ∧
      genericFailMsg "Connection error: refused" ≠ "" ∧
      res.title = "" ∧ res.description = "" ∧ res.og_tags = false ∧ res.h1 = none ∧
      res.jsonld_count = 0 ∧ res.load_time = none ∧
      res.robots_exists =
        (check_robots true c2net (normalize_url "https://example.com")).exists' ∧
      res.ai_bots = (check_robots true c2net (normalize_url "https://example.com")).ai_bots ∧
      res.has_sitemap = check_sitemap true c2net (normalize_url "https://example.com") ∧
      ((check_robots true c2net (normalize_url "https://example.com")).ai_bots ≠ [] →
        check_sitemap true c2net (normalize_url "https://example.com") = true →
        res.score = 25) :=
  claim2_blocked_partial_result true (fun _ => emptyMeta) c2net "https://example.com"
    (genericFailMsg "Connection error: refused") (by decide) (by decide)

/-- C7 (amended): a non-http/https scheme such as ftp or file is rejected
identically under every network — no fetch influences the outcome — while
a schemeless input is defaulted to https only when it does not already
begin with the literal characters "http"; a schemeless host like
httpbin.org is fetched as-is. -/
theorem claim7_scheme_gate :
    (∀ (avail : Bool) (em : String → Meta) (net net2 : Network) (url : String),
       ((urlparse url).scheme ≠ "" ∧ (urlparse url).scheme ∉ ["http", "https"]) →
       run_audit avail em net url = run_audit avail em net2 url ∧
       ∃ e, run_audit avail em net url = .error e) ∧
    (∀ (avail : Bool) (em : String → Meta) (net : Network) (url : String),
       (urlparse url).scheme = "" → strStartsWith url "http" = false →
       ∃ res, run_audit avail em net url = .ok res ∧ res.url = "https://" ++ url) := by
  constructor
  · intro avail em net net2 url hc
    constructor
    · simp only [run_audit]
      rw [if_pos hc, if_pos hc]
    · refine ⟨"Unsupported URL scheme: " ++ (urlparse url).scheme ++
        ". Only http and https are allowed.", ?_⟩
      simp only [run_audit]
      rw [if_pos hc]
  · intro avail em net url hs hstart
    have hcond : ¬((urlparse url).scheme ≠ "" ∧ (urlparse url).scheme ∉ ["http", "https"]) := by
      simp [hs]
    have hnorm : normalize_url url = "https://" ++ url := by
      unfold normalize_url
      rw [hstart]
      simp
    refine ⟨audit_result avail em net (normalize_url url), ?_, ?_⟩
    · simp only [run_audit]
      rw [if_neg hcond]
    · rw [hnorm]
      rcases hf : fetch_url avail net ("https://" ++ url) with ⟨a, hh, tt⟩ | b <;>
        (unfold audit_result; rw [hf]) <;> rfl

set_option maxRecDepth 400000 in
theorem claim7_counterexample :
    (urlparse "httpbin.org").scheme = "" ∧
    ∃ res, run_audit true (fun _ => emptyMeta) c7netA "httpbin.org" = .ok res ∧
      res.url = "httpbin.org" ∧ res.url ≠ "https://httpbin.org" := by
  refine ⟨by decide,
    audit_result true (fun _ => emptyMeta) c7netA (normalize_url "httpbin.org"),
    ?_, by decide, by decide⟩
  simp only [run_audit]
  rw [if_neg (by decide)]

set_option maxRecDepth 400000 in
theorem claim7_witness :
    (run_audit true (fun _ => emptyMeta) c7netA "ftp://example.com" =
       run_audit true (fun _ => emptyMeta) c7netB "ftp://example.com" ∧
     ∃ e, run_audit true (fun _ => emptyMeta) c7netA "ftp://example.com" = .error e) ∧
    (∃ res, run_audit true (fun _ => emptyMeta) c7netA "example.com" = .ok res ∧
       res.url = "https://" ++ "example.com") :=
  ⟨claim7_scheme_gate.1 true (fun _ => emptyMeta) c7netA c7netB "ftp://example.com" (by decide),
   claim7_scheme_gate.2 true (fun _ => emptyMeta) c7netA "example.com" (by decide) (by decide)⟩
